import Mathlib

/-!
Verification of the route-plotter engine core (geometry, timing, runtime).

Shallow embedding conventions:
- JavaScript numbers are modelled as rationals where the code stays in
  finite-value territory (timing and runtime modules).  Division is total
  on the rationals with q / 0 = 0; no settled statement below depends on a
  zero-denominator case except where the IEEE behaviour is modelled
  explicitly.
- Math.sqrt and Math.pow(x, 0.5) return irrational doubles in general, so
  the geometry and constant-speed code is parametrised over an abstract
  square-root function sqrtFn over the rationals.  Statements hold for
  every such function unless they pin concrete values.
- For the geometry module a dedicated JSNum type models IEEE special
  values (NaN and signed infinities), because the centripetal basis in the
  source divides 0 / 0 when adjacent control points coincide; signed zeros
  are collapsed to a single zero, which is exact for every evaluation
  below.
-/

namespace RouterPlotter

/-! Timing engine, from src/engine/timing.ts. -/

inductive TimingMode
  | constantTime
  | constantSpeed
deriving DecidableEq

inductive PauseMode
  | none
  | seconds
  | click
deriving DecidableEq

structure Waypoint where
  x : ℚ
  y : ℚ
  isMajor : Bool
deriving DecidableEq

structure Point where
  x : ℚ
  y : ℚ
deriving DecidableEq

structure TimingConfig where
  mode : TimingMode
  baseSpeedPxPerSec : ℚ
  pauseMode : PauseMode
  pauseSeconds : ℚ
  easeInOut : Bool
deriving DecidableEq

structure Segment where
  startTime : ℚ
  endTime : ℚ
  duration : ℚ
  startProgress : ℚ
  endProgress : ℚ
  startWaypointIndex : ℕ
  endWaypointIndex : ℕ
  hasPause : Bool
  pauseDuration : ℚ
deriving DecidableEq

structure SegmentTimingMap where
  segments : List Segment
  totalDuration : ℚ
  totalPathLength : ℚ
  mode : TimingMode
  baseSpeed : ℚ
deriving DecidableEq

/-- Default segment used only to total out-of-range list reads. -/
def segZero : Segment :=
  { startTime := 0, endTime := 0, duration := 0, startProgress := 0,
    endProgress := 0, startWaypointIndex := 0, endWaypointIndex := 0,
    hasPause := false, pauseDuration := 0 }

/-- quadraticEaseInOut from timing.ts lines 44-49. -/
def quadraticEaseInOut (t : ℚ) : ℚ :=
  if t < 1 / 2 then 2 * t * t
  else -1 + (4 - 2 * t) * t

/-- applyEasing from timing.ts lines 54-68.  The index comparison
totalSegments - 1 is truncated natural subtraction; the call sites only
use it with a positive totalSegments, where it matches the source. -/
def applyEasing (progress : ℚ) (useEasing : Bool) (segmentIndex totalSegments : ℕ) : ℚ :=
  if !useEasing then progress
  else if segmentIndex = 0 ∨ segmentIndex = totalSegments - 1 then progress
  else quadraticEaseInOut progress

/-- Euclidean distance from geometry, with the square root abstracted. -/
def distanceQ (sqrtFn : ℚ → ℚ) (a b : Point) : ℚ :=
  sqrtFn ((b.x - a.x) * (b.x - a.x) + (b.y - a.y) * (b.y - a.y))

/-- Accumulating pass of buildArcLengthTable. -/
def arcLengthAux (sqrtFn : ℚ → ℚ) (prev : Point) (total : ℚ) : List Point → List ℚ
  | [] => []
  | p :: ps =>
    let total2 := total + distanceQ sqrtFn prev p
    total2 :: arcLengthAux sqrtFn p total2 ps

/-- buildArcLengthTable from geometry: cumulative distances starting at 0. -/
def buildArcLengthTable (sqrtFn : ℚ → ℚ) (points : List Point) : List ℚ :=
  match points with
  | [] => []
  | p :: ps => 0 :: arcLengthAux sqrtFn p 0 ps

/-- Index of the first structurally equal waypoint, modelling
Array.prototype.indexOf on an element taken from the list itself (the
callers pass members of a filter of the list, so the element is present
and reference equality coincides with structural equality for distinct
waypoints). -/
def indexOfWp (waypoints : List Waypoint) (w : Waypoint) : ℕ :=
  (waypoints.findIdx? (fun v => v = w)).getD 0

def wpZero : Waypoint := { x := 0, y := 0, isMajor := false }

def pointZero : Point := { x := 0, y := 0 }

/-- The inner arc-length sum of buildTimingMap (timing.ts lines 120-125):
sum of Euclidean steps of pathPoints over indices [a, b). -/
def segmentLengthSum (sqrtFn : ℚ → ℚ) (pp : List Point) (a b : ℕ) : ℚ :=
  (List.range (b - a)).foldl
    (fun acc k =>
      let p := pp.getD (a + k) pointZero
      let q := pp.getD (a + k + 1) pointZero
      acc + sqrtFn ((q.x - p.x) * (q.x - p.x) + (q.y - p.y) * (q.y - p.y)))
    0

/-- Duration of segment i of the buildTimingMap loop (timing.ts lines
108-129): 3 seconds in constantTime mode, arc length over base speed in
constantSpeed mode when densified points are present, 0 otherwise. -/
def segDuration (sqrtFn : ℚ → ℚ) (waypoints : List Waypoint) (config : TimingConfig)
    (pathPoints : Option (List Point)) (majors : List Waypoint) (i : ℕ) : ℚ :=
  match config.mode with
  | TimingMode.constantTime => 3
  | TimingMode.constantSpeed =>
    match pathPoints with
    | Option.none => 0
    | Option.some pp =>
      let startIdx := indexOfWp waypoints (majors.getD i wpZero)
      let endIdx := indexOfWp waypoints (majors.getD (i + 1) wpZero)
      let startPathIndex :=
        (Int.floor ((startIdx : ℚ) / ((waypoints.length : ℚ) - 1) * ((pp.length : ℚ) - 1))).toNat
      let endPathIndex :=
        (Int.floor ((endIdx : ℚ) / ((waypoints.length : ℚ) - 1) * ((pp.length : ℚ) - 1))).toNat
      segmentLengthSum sqrtFn pp startPathIndex endPathIndex / config.baseSpeedPxPerSec

/-- The hasPause flag of segment i (timing.ts line 132), kept exactly as
in the source: pauseMode different from none AND i below the number of
segments.  The second conjunct is vacuously true for every loop index,
which is the last-segment pause bug examined below. -/
def segHasPause (config : TimingConfig) (majorsLen : ℕ) (i : ℕ) : Bool :=
  decide (config.pauseMode ≠ PauseMode.none) && decide (i < majorsLen - 1)

/-- The segment-building loop of buildTimingMap (timing.ts lines 102-148),
abstracted over the per-index data just as the loop body reads it: i is
the loop counter, the second argument the remaining iteration count, the
rational accumulator is the running totalDuration. -/
def buildSegsLoop (dur pauseD : ℕ → ℚ) (hasP : ℕ → Bool) (sProg eProg : ℕ → ℚ)
    (sIdx eIdx : ℕ → ℕ) : ℕ → ℕ → ℚ → List Segment × ℚ
  | _, 0, acc => ([], acc)
  | i, n + 1, acc =>
    let d := dur i
    let p := pauseD i
    let seg : Segment :=
      { startTime := acc, endTime := acc + d, duration := d,
        startProgress := sProg i, endProgress := eProg i,
        startWaypointIndex := sIdx i, endWaypointIndex := eIdx i,
        hasPause := hasP i, pauseDuration := p }
    let rest := buildSegsLoop dur pauseD hasP sProg eProg sIdx eIdx (i + 1) n (acc + d + p)
    (seg :: rest.1, rest.2)

/-- Number of major waypoints. -/
def majorCount (waypoints : List Waypoint) : ℕ :=
  (waypoints.filter (fun wp => wp.isMajor)).length

/-- The pauseDuration of segment i (timing.ts line 133). -/
def pauseDurAt (config : TimingConfig) (majorsLen : ℕ) (i : ℕ) : ℚ :=
  if segHasPause config majorsLen i then config.pauseSeconds else 0

/-- startProgress of segment i (timing.ts line 139). -/
def startProgAt (majorsLen : ℕ) (i : ℕ) : ℚ := (i : ℚ) / ((majorsLen : ℚ) - 1)

/-- endProgress of segment i (timing.ts line 140). -/
def endProgAt (majorsLen : ℕ) (i : ℕ) : ℚ := ((i : ℚ) + 1) / ((majorsLen : ℚ) - 1)

/-- Waypoint-list index of the i-th major waypoint (timing.ts lines
105-106). -/
def startIdxAt (waypoints : List Waypoint) (i : ℕ) : ℕ :=
  indexOfWp waypoints ((waypoints.filter (fun wp => wp.isMajor)).getD i wpZero)

/-- buildTimingMap from timing.ts lines 73-157. -/
def buildTimingMap (sqrtFn : ℚ → ℚ) (waypoints : List Waypoint) (config : TimingConfig)
    (pathPoints : Option (List Point)) : SegmentTimingMap :=
  let totalPathLength : ℚ :=
    match config.mode, pathPoints with
    | TimingMode.constantSpeed, Option.some pp =>
      ((buildArcLengthTable sqrtFn pp).getLast?).getD 0
    | _, _ => 0
  let majors := waypoints.filter (fun wp => wp.isMajor)
  if majors.length < 2 then
    { segments := [], totalDuration := 0, totalPathLength := totalPathLength,
      mode := config.mode, baseSpeed := config.baseSpeedPxPerSec }
  else
    let n := majors.length
    let built := buildSegsLoop
      (segDuration sqrtFn waypoints config pathPoints majors)
      (pauseDurAt config n)
      (segHasPause config n)
      (startProgAt n)
      (endProgAt n)
      (startIdxAt waypoints)
      (fun i => startIdxAt waypoints (i + 1))
      0 (n - 1) 0
    { segments := built.1, totalDuration := built.2, totalPathLength := totalPathLength,
      mode := config.mode, baseSpeed := config.baseSpeedPxPerSec }

/-- The segment-scan predicate of getNormalizedProgressAtTime (timing.ts
line 174): startTime below or equal to time, time strictly below endTime
plus pauseDuration. -/
def progressSegPred (time : ℚ) (s : Segment) : Bool :=
  decide (s.startTime ≤ time) && decide (time < s.endTime + s.pauseDuration)

/-- Index of the segment the scan settles on: first match, else 0 (the
source keeps segments[0] when no segment matches, and the later indexOf
reads the position of that same object back). -/
def progressSegIdx (map : SegmentTimingMap) (time : ℚ) : ℕ :=
  (map.segments.findIdx? (progressSegPred time)).getD 0

/-- getNormalizedProgressAtTime from timing.ts lines 162-202. -/
def getNormalizedProgressAtTime (map : SegmentTimingMap) (time0 : ℚ) : ℚ :=
  match map.segments with
  | [] => 0
  | s0 :: _ =>
    let time := max 0 (min time0 map.totalDuration)
    let idx := progressSegIdx map time
    let cur := map.segments.getD idx s0
    if decide (cur.endTime ≤ time) && decide (time < cur.endTime + cur.pauseDuration) then
      cur.endProgress
    else
      let segmentTime := time - cur.startTime
      let segmentProgress := segmentTime / cur.duration
      let easedProgress := applyEasing segmentProgress true idx map.segments.length
      cur.startProgress + (cur.endProgress - cur.startProgress) * easedProgress

/-- The progress-scan predicate of getTimeAtNormalizedProgress (timing.ts
line 219). -/
def timeSegPred (progress : ℚ) (s : Segment) : Bool :=
  decide (s.startProgress ≤ progress) && decide (progress ≤ s.endProgress)

/-- getTimeAtNormalizedProgress from timing.ts lines 207-234.  The inverse
deliberately stays linear inside a segment; the source comment
acknowledges it does not undo the easing. -/
def getTimeAtNormalizedProgress (map : SegmentTimingMap) (progress0 : ℚ) : ℚ :=
  match map.segments with
  | [] => 0
  | s0 :: _ =>
    let progress := max 0 (min progress0 1)
    let idx := (map.segments.findIdx? (timeSegPred progress)).getD 0
    let cur := map.segments.getD idx s0
    let segmentProgress := (progress - cur.startProgress) / (cur.endProgress - cur.startProgress)
    cur.startTime + segmentProgress * cur.duration

/-- getCurrentSegment from timing.ts lines 239-252, as an index: first
segment whose time plus pause window contains the time, else the last
segment; none when the segment list is empty. -/
def getCurrentSegmentIdx (map : SegmentTimingMap) (time : ℚ) : Option ℕ :=
  match map.segments with
  | [] => Option.none
  | _ :: _ =>
    Option.some ((map.segments.findIdx? (progressSegPred time)).getD (map.segments.length - 1))

/-! Concrete timing fixtures: three major waypoints, constantTime mode,
pauseMode seconds with pauseSeconds = 2 (the configuration of the pause
correctness property in the spec).  The square-root function is never
reached in constantTime mode. -/

def sqrtZero : ℚ → ℚ := fun _ => 0

def wpA : Waypoint := { x := 0, y := 0, isMajor := true }

def wpB : Waypoint := { x := 100, y := 0, isMajor := true }

def wpC : Waypoint := { x := 200, y := 0, isMajor := true }

def pauseConfig : TimingConfig :=
  { mode := TimingMode.constantTime, baseSpeedPxPerSec := 200,
    pauseMode := PauseMode.seconds, pauseSeconds := 2, easeInOut := true }

def pauseMap : SegmentTimingMap :=
  buildTimingMap sqrtZero [wpA, wpB, wpC] pauseConfig Option.none

def pauseSeg0 : Segment :=
  { startTime := 0, endTime := 3, duration := 3, startProgress := 0, endProgress := 1 / 2,
    startWaypointIndex := 0, endWaypointIndex := 1, hasPause := true, pauseDuration := 2 }

def pauseSeg1 : Segment :=
  { startTime := 5, endTime := 8, duration := 3, startProgress := 1 / 2, endProgress := 1,
    startWaypointIndex := 1, endWaypointIndex := 2, hasPause := true, pauseDuration := 2 }

lemma pairGetSnd {α : Type _} (a b : α) (h : 1 < ([a, b] : List α).length) :
    ([a, b] : List α)[1] = b := rfl

lemma pauseMap_eq :
    pauseMap = { segments := [pauseSeg0, pauseSeg1],
                 totalDuration := 10,
                 totalPathLength := 0,
                 mode := TimingMode.constantTime,
                 baseSpeed := 200 } := by
  norm_num +decide [pauseMap, buildTimingMap, buildSegsLoop, segDuration, segHasPause,
    pauseDurAt, startProgAt, endProgAt, startIdxAt,
    indexOfWp, pauseConfig, wpA, wpB, wpC, pauseSeg0, pauseSeg1, List.findIdx?,
    List.filter, wpZero]

/-- Claim C1: refuting evaluation.  For the 3-major constantTime path with
pauseSeconds = 2, the built map charges a trailing pause to BOTH segments
(the guard i < majors.length - 1 at timing.ts line 132 is always true
inside a loop bounded by the same expression, contradicting the source
comment "except for last segment"), so totalDuration is 3 + 2 + 3 + 2 =
10 instead of the 3 + 3 + 2 = 8 the claim states. -/
theorem c1_last_segment_pause_eval :
    pauseMap.totalDuration = 10 ∧
    (pauseMap.segments.map (fun s => s.duration)) = [3, 3] ∧
    (pauseMap.segments.map (fun s => s.pauseDuration)) = [2, 2] ∧
    (pauseMap.segments.map (fun s => s.hasPause)) = [true, true] := by
  rw [pauseMap_eq]
  norm_num [pauseSeg0, pauseSeg1]

/-- Claim C2: refuting evaluation.  At time = totalDuration = 10 on the
pause map, no segment satisfies the scan window (the last window is
half-open), the scan falls back to segments[0], and the linear motion
formula extrapolates: the function returns 5/3 rather than 1, outside the
documented [0, 1] range. -/
theorem c2_progress_at_total_duration_eval :
    getNormalizedProgressAtTime pauseMap pauseMap.totalDuration = 5 / 3 ∧
    pauseMap.totalDuration = 10 := by
  rw [pauseMap_eq]
  norm_num +decide [getNormalizedProgressAtTime, progressSegIdx, progressSegPred,
    applyEasing, quadraticEaseInOut, pauseSeg0, pauseSeg1, List.findIdx?,
    max_def, min_def]

/-- Claim C6: refuting evaluation.  The round trip at t = totalDuration on
the pause map returns 8, not 10: the forward direction overshoots to 5/3,
the inverse clamps to 1 and lands on the last segment endTime, which sits
one pause window short of totalDuration because the final segment carries
a trailing pause. -/
theorem c6_round_trip_eval :
    getTimeAtNormalizedProgress pauseMap
      (getNormalizedProgressAtTime pauseMap pauseMap.totalDuration) = 8 ∧
    pauseMap.totalDuration = 10 := by
  rw [pauseMap_eq]
  norm_num +decide [getNormalizedProgressAtTime, getTimeAtNormalizedProgress,
    progressSegIdx, progressSegPred, timeSegPred, applyEasing, quadraticEaseInOut,
    pauseSeg0, pauseSeg1, List.findIdx?, max_def, min_def, pairGetSnd]

/-! Runtime engine, from src/engine/runtime.ts. -/

structure RuntimeState where
  time : ℚ
  normalizedProgress : ℚ
  currentSegmentIndex : ℕ
  isPlaying : Bool
  speed : ℚ
  frame : ℕ
  fps : ℚ
deriving DecidableEq

structure RuntimeConfig where
  fps : ℚ
  totalDuration : ℚ
deriving DecidableEq

structure Runtime where
  config : RuntimeConfig
  timingMap : Option SegmentTimingMap
  state : RuntimeState
  accumulatedTime : ℚ
  lastTimestamp : Option ℚ
deriving DecidableEq

/-- The DeterministicRuntime constructor (runtime.ts lines 36-47). -/
def mkRuntime (config : RuntimeConfig) : Runtime :=
  { config := config, timingMap := Option.none,
    state := { time := 0, normalizedProgress := 0, currentSegmentIndex := 0,
               isPlaying := false, speed := 1, frame := 0, fps := config.fps },
    accumulatedTime := 0, lastTimestamp := Option.none }

/-- getFixedTimeStep (runtime.ts lines 73-75). -/
def getFixedTimeStep (r : Runtime) : ℚ := 1 / r.config.fps

/-- reset (runtime.ts lines 61-68).  Exactly the fields the source resets:
time, normalizedProgress, currentSegmentIndex, frame, accumulatedTime,
lastTimestamp.  The isPlaying flag is NOT among them. -/
def reset (r : Runtime) : Runtime :=
  { r with
    state := { r.state with time := 0,
                            normalizedProgress := 0,
                            currentSegmentIndex := 0,
                            frame := 0 },
    accumulatedTime := 0, lastTimestamp := Option.none }

/-- setTimingMap (runtime.ts lines 52-56): install the map, mirror its
totalDuration into the config, then reset. -/
def setTimingMap (m : SegmentTimingMap) (r : Runtime) : Runtime :=
  reset { r with timingMap := Option.some m,
                 config := { r.config with totalDuration := m.totalDuration } }

/-- step (runtime.ts lines 80-105): silently returns when no map is
installed; otherwise, when playing, advances time by one fixed step scaled
by speed, clamps at totalDuration (dropping out of Playing), recomputes
progress and segment index, and increments the frame counter. -/
def step (r : Runtime) : Runtime :=
  match r.timingMap with
  | Option.none => r
  | Option.some m =>
    if r.state.isPlaying then
      let dt := getFixedTimeStep r * r.state.speed
      let t1 := r.state.time + dt
      let clamped := decide (r.config.totalDuration ≤ t1)
      let t2 := if clamped then r.config.totalDuration else t1
      let playing := if clamped then false else true
      let prog := getNormalizedProgressAtTime m t2
      let idx := match getCurrentSegmentIdx m t2 with
        | Option.some i => i
        | Option.none => r.state.currentSegmentIndex
      { r with state := { r.state with time := t2,
                                       isPlaying := playing,
                                       normalizedProgress := prog,
                                       currentSegmentIndex := idx,
                                       frame := r.state.frame + 1 } }
    else r

/-- seekToTime (runtime.ts lines 110-122): clamps, recomputes progress,
segment index, and frame; silently returns with no installed map. -/
def seekToTime (t0 : ℚ) (r : Runtime) : Runtime :=
  match r.timingMap with
  | Option.none => r
  | Option.some m =>
    let t := max 0 (min t0 r.config.totalDuration)
    let prog := getNormalizedProgressAtTime m t
    let idx := match getCurrentSegmentIdx m t with
      | Option.some i => i
      | Option.none => r.state.currentSegmentIndex
    { r with state := { r.state with time := t,
                                     normalizedProgress := prog,
                                     currentSegmentIndex := idx,
                                     frame := (Int.floor (t * r.config.fps)).toNat } }

/-- seekToNormalizedProgress (runtime.ts lines 127-139). -/
def seekToNormalizedProgress (p0 : ℚ) (r : Runtime) : Runtime :=
  match r.timingMap with
  | Option.none => r
  | Option.some m =>
    let p := max 0 (min p0 1)
    let t := getTimeAtNormalizedProgress m p
    let idx := match getCurrentSegmentIdx m t with
      | Option.some i => i
      | Option.none => r.state.currentSegmentIndex
    { r with state := { r.state with normalizedProgress := p,
                                     time := t,
                                     currentSegmentIndex := idx,
                                     frame := (Int.floor (t * r.config.fps)).toNat } }

/-- play (runtime.ts lines 144-146). -/
def play (r : Runtime) : Runtime :=
  { r with state := { r.state with isPlaying := true } }

/-- setSpeed (runtime.ts lines 165-167): clamps to [0.25, 8]. -/
def setSpeed (speed : ℚ) (r : Runtime) : Runtime :=
  { r with state := { r.state with speed := max (1 / 4) (min speed 8) } }

/-- seekToFrame (runtime.ts lines 214-217). -/
def seekToFrame (frame : ℕ) (r : Runtime) : Runtime :=
  seekToTime ((frame : ℚ) / r.config.fps) r

lemma step_timingMap (r : Runtime) : (step r).timingMap = r.timingMap := by
  cases hm : r.timingMap <;> cases hp : r.state.isPlaying <;> simp [step, hm, hp]

lemma step_config (r : Runtime) : (step r).config = r.config := by
  cases hm : r.timingMap <;> cases hp : r.state.isPlaying <;> simp [step, hm, hp]

lemma step_accumulatedTime (r : Runtime) : (step r).accumulatedTime = r.accumulatedTime := by
  cases hm : r.timingMap <;> cases hp : r.state.isPlaying <;> simp [step, hm, hp]

/-- The effect of step on the visible state depends only on the installed
map, the config, and the prior state, never on the wall-clock bookkeeping
fields. -/
lemma step_state_congr (r1 r2 : Runtime) (hm : r1.timingMap = r2.timingMap)
    (hc : r1.config = r2.config) (hs : r1.state = r2.state) :
    (step r1).state = (step r2).state := by
  cases hm2 : r2.timingMap with
  | none => simp [step, hm.trans hm2, hm2, hs]
  | some m =>
    cases hp2 : r2.state.isPlaying <;>
      simp [step, hm.trans hm2, hm2, hs, hc, hp2, getFixedTimeStep]

lemma stepIter_state_congr (k : ℕ) (r1 r2 : Runtime) (hm : r1.timingMap = r2.timingMap)
    (hc : r1.config = r2.config) (hs : r1.state = r2.state) :
    ((step^[k]) r1).state = ((step^[k]) r2).state := by
  induction k generalizing r1 r2 with
  | zero => simpa using hs
  | succ k ih =>
    rw [Function.iterate_succ_apply, Function.iterate_succ_apply]
    exact ih (step r1) (step r2)
      (by rw [step_timingMap, step_timingMap, hm])
      (by rw [step_config, step_config, hc])
      (step_state_congr r1 r2 hm hc hs)

/-- The while loop of update (runtime.ts lines 238-241): run step and
subtract the fixed step from the accumulator while the accumulator holds
at least one fixed step.  The source loop diverges when fixedStep is not
positive; the embedding adds the positivity test to the guard, so it
models exactly the terminating executions (every call below has a
positive fps). -/
def updateLoop (fs : ℚ) (r : Runtime) : Runtime :=
  if h : 0 < fs ∧ fs ≤ r.accumulatedTime then
    updateLoop fs { step r with accumulatedTime := r.accumulatedTime - fs }
  else r
termination_by (Int.floor (r.accumulatedTime / fs)).toNat
decreasing_by
  obtain ⟨hfs, hle⟩ := h
  have hfsne : fs ≠ 0 := ne_of_gt hfs
  have h1 : (1 : ℚ) ≤ r.accumulatedTime / fs := (one_le_div hfs).mpr hle
  have h2 : (1 : ℤ) ≤ Int.floor (r.accumulatedTime / fs) := Int.le_floor.mpr (by exact_mod_cast h1)
  have h3 : (r.accumulatedTime - fs) / fs = r.accumulatedTime / fs - 1 := by
    rw [sub_div, div_self hfsne]
  have h4 : Int.floor (r.accumulatedTime / fs - 1) = Int.floor (r.accumulatedTime / fs) - 1 :=
    Int.floor_sub_one _
  show (Int.floor ((r.accumulatedTime - fs) / fs)).toNat <
    (Int.floor (r.accumulatedTime / fs)).toNat
  rw [h3, h4]
  omega

/-- update (runtime.ts lines 223-242): early return when not playing;
otherwise compute the elapsed wall-clock delta (zero on the very first
call), accumulate it scaled by speed, and run the fixed-step loop. -/
def update (ts : ℚ) (r : Runtime) : Runtime :=
  if r.state.isPlaying then
    let last := r.lastTimestamp.getD ts
    let deltaTime := (ts - last) / 1000
    updateLoop (getFixedTimeStep r)
      { r with lastTimestamp := Option.some ts,
               accumulatedTime := r.accumulatedTime + deltaTime * r.state.speed }
  else r

/-- Each terminating run of the update loop is state-wise a finite number
of direct step calls. -/
lemma updateLoop_eq_iterate (fs : ℚ) (hfs : 0 < fs) (r : Runtime) :
    ∃ k : ℕ, (updateLoop fs r).state = ((step^[k]) r).state := by
  generalize hN : (Int.floor (r.accumulatedTime / fs)).toNat = N
  induction N generalizing r with
  | zero =>
    have hg : ¬ (0 < fs ∧ fs ≤ r.accumulatedTime) := by
      rintro ⟨h1, h2⟩
      have ha : (1 : ℚ) ≤ r.accumulatedTime / fs := (one_le_div h1).mpr h2
      have hb : (1 : ℤ) ≤ Int.floor (r.accumulatedTime / fs) :=
        Int.le_floor.mpr (by exact_mod_cast ha)
      omega
    refine ⟨0, ?_⟩
    unfold updateLoop
    simp [hg]
  | succ N ih =>
    by_cases hg : 0 < fs ∧ fs ≤ r.accumulatedTime
    · have hfsne : fs ≠ 0 := ne_of_gt hg.1
      have h3 : (r.accumulatedTime - fs) / fs = r.accumulatedTime / fs - 1 := by
        rw [sub_div, div_self hfsne]
      have hb : (1 : ℤ) ≤ Int.floor (r.accumulatedTime / fs) :=
        Int.le_floor.mpr (by exact_mod_cast (one_le_div hg.1).mpr hg.2)
      have hmeas :
          (Int.floor (({ step r with
            accumulatedTime := r.accumulatedTime - fs } : Runtime).accumulatedTime / fs)).toNat
            = N := by
        show (Int.floor ((r.accumulatedTime - fs) / fs)).toNat = N
        rw [h3, Int.floor_sub_one]
        omega
      obtain ⟨k, hk⟩ := ih _ hmeas
      refine ⟨k + 1, ?_⟩
      unfold updateLoop
      rw [dif_pos hg]
      refine Eq.trans hk ?_
      rw [Function.iterate_succ_apply]
      exact stepIter_state_congr k _ (step r) rfl rfl rfl
    · exact ⟨0, by unfold updateLoop; simp [hg]⟩

/-- Claim C3: confirmed.  First conjunct: every update call leaves the
runtime in the state reached by some number of direct step calls from the
same starting point, so the sequence of visible states visited by update
calls is exactly a step-call sequence (the loop body is literally step).
Second conjunct, the determinism contract: the ordered sequence of states
produced by n step calls depends only on the installed map, the config,
and the starting state, so two playthroughs agreeing on those visit
identical (frame, time, normalizedProgress) sequences. -/
theorem c3_update_refines_step (r : Runtime) (ts : ℚ) (hfps : 0 < r.config.fps) :
    (∃ k : ℕ, (update ts r).state = ((step^[k]) r).state) ∧
    (∀ (n : ℕ) (r2 : Runtime), r2.timingMap = r.timingMap → r2.config = r.config →
      r2.state = r.state →
      (List.range n).map (fun j => ((step^[j + 1]) r2).state) =
        (List.range n).map (fun j => ((step^[j + 1]) r).state)) := by
  constructor
  · cases hp : r.state.isPlaying
    · exact ⟨0, by unfold update; simp [hp]⟩
    · have hfs : 0 < getFixedTimeStep r := by
        unfold getFixedTimeStep
        exact one_div_pos.mpr hfps
      obtain ⟨k, hk⟩ := updateLoop_eq_iterate (getFixedTimeStep r) hfs
        { r with lastTimestamp := Option.some ts,
                 accumulatedTime := r.accumulatedTime +
                   (ts - r.lastTimestamp.getD ts) / 1000 * r.state.speed }
      refine ⟨k, ?_⟩
      unfold update
      simp only [hp, if_true]
      exact hk.trans (stepIter_state_congr k _ r rfl rfl rfl)
  · intro n r2 hm hc hs
    refine List.map_congr_left ?_
    intro j _
    exact stepIter_state_congr (j + 1) r2 r hm hc hs

def rtConfig : RuntimeConfig := { fps := 25, totalDuration := 0 }

def demoRuntime : Runtime := play (setTimingMap pauseMap (mkRuntime rtConfig))

/-- Witness for C3 at a concrete playing runtime with fps 25. -/
theorem c3_update_refines_step_witness :
    (∃ k : ℕ, (update 100 demoRuntime).state = ((step^[k]) demoRuntime).state) ∧
    (List.range 5).map (fun j => ((step^[j + 1]) demoRuntime).state) =
      (List.range 5).map (fun j => ((step^[j + 1]) demoRuntime).state) := by
  have h := c3_update_refines_step demoRuntime 100
    (by norm_num [demoRuntime, play, setTimingMap, reset, mkRuntime, rtConfig])
  exact ⟨h.1, h.2 5 demoRuntime rfl rfl rfl⟩

/-- Claim C4: counterexample.  Installing a map on a runtime that is
currently playing leaves it playing: reset (runtime.ts lines 61-68) never
touches isPlaying, so setTimingMap does not restore the not-playing Ready
state the claim demands. -/
theorem c4_counterexample :
    (setTimingMap pauseMap (play (mkRuntime rtConfig))).state.isPlaying = true := rfl

/-- Claim C4: amended.  setTimingMap installs the new map, mirrors its
totalDuration into the config, and resets time, frame, normalizedProgress,
currentSegmentIndex, the step accumulator and the stored timestamp to
their initial values, but leaves isPlaying (and speed) unchanged. -/
theorem c4_setTimingMap_amended (r : Runtime) (m : SegmentTimingMap) :
    (setTimingMap m r).timingMap = Option.some m ∧
    (setTimingMap m r).config.totalDuration = m.totalDuration ∧
    (setTimingMap m r).state.time = 0 ∧
    (setTimingMap m r).state.frame = 0 ∧
    (setTimingMap m r).state.normalizedProgress = 0 ∧
    (setTimingMap m r).state.currentSegmentIndex = 0 ∧
    (setTimingMap m r).accumulatedTime = 0 ∧
    (setTimingMap m r).lastTimestamp = Option.none ∧
    (setTimingMap m r).state.isPlaying = r.state.isPlaying ∧
    (setTimingMap m r).state.speed = r.state.speed := by
  simp [setTimingMap, reset]

/-- Witness for the amended C4 at a concrete playing runtime and the
concrete pause map. -/
theorem c4_setTimingMap_amended_witness :
    (setTimingMap pauseMap (play (mkRuntime rtConfig))).timingMap = Option.some pauseMap ∧
    (setTimingMap pauseMap (play (mkRuntime rtConfig))).config.totalDuration
      = pauseMap.totalDuration ∧
    (setTimingMap pauseMap (play (mkRuntime rtConfig))).state.time = 0 ∧
    (setTimingMap pauseMap (play (mkRuntime rtConfig))).state.frame = 0 ∧
    (setTimingMap pauseMap (play (mkRuntime rtConfig))).state.normalizedProgress = 0 ∧
    (setTimingMap pauseMap (play (mkRuntime rtConfig))).state.currentSegmentIndex = 0 ∧
    (setTimingMap pauseMap (play (mkRuntime rtConfig))).accumulatedTime = 0 ∧
    (setTimingMap pauseMap (play (mkRuntime rtConfig))).lastTimestamp = Option.none ∧
    (setTimingMap pauseMap (play (mkRuntime rtConfig))).state.isPlaying
      = (play (mkRuntime rtConfig)).state.isPlaying ∧
    (setTimingMap pauseMap (play (mkRuntime rtConfig))).state.speed
      = (play (mkRuntime rtConfig)).state.speed :=
  c4_setTimingMap_amended (play (mkRuntime rtConfig)) pauseMap

/-- Claim C5: counterexample.  On a freshly constructed runtime with no
map installed, step and seekToTime return the runtime completely
unchanged: the operations are total and guarded by an early return, so
nothing fails loudly. -/
theorem c5_counterexample :
    step (mkRuntime rtConfig) = mkRuntime rtConfig ∧
    seekToTime 5 (mkRuntime rtConfig) = mkRuntime rtConfig := ⟨rfl, rfl⟩

/-- Claim C5: amended.  Every runtime operation invoked with no timing map
installed silently returns the runtime unchanged (the early-return guard
at the top of each method); none of them throws. -/
theorem c5_no_map_silent_amended (r : Runtime) (h : r.timingMap = Option.none)
    (t p : ℚ) (f : ℕ) :
    step r = r ∧ seekToTime t r = r ∧ seekToNormalizedProgress p r = r ∧
    seekToFrame f r = r := by
  refine ⟨?_, ?_, ?_, ?_⟩ <;>
    simp [step, seekToTime, seekToNormalizedProgress, seekToFrame, h]

/-- Witness for C5 amended at the freshly constructed runtime. -/
theorem c5_no_map_silent_witness :
    step (mkRuntime rtConfig) = mkRuntime rtConfig ∧
    seekToTime 5 (mkRuntime rtConfig) = mkRuntime rtConfig ∧
    seekToNormalizedProgress (1 / 2) (mkRuntime rtConfig) = mkRuntime rtConfig ∧
    seekToFrame 3 (mkRuntime rtConfig) = mkRuntime rtConfig :=
  c5_no_map_silent_amended (mkRuntime rtConfig) rfl 5 (1 / 2) 3

/-! Characterisation of the segment-building loop, used for the timing-map
invariants. -/

/-- Running total of motion plus pause durations over loop indices
i, i+1, ..., i+j-1. -/
def pairSum (dur pauseD : ℕ → ℚ) (i j : ℕ) : ℚ :=
  ∑ k in Finset.range j, (dur (i + k) + pauseD (i + k))

lemma pairSum_zero (dur pauseD : ℕ → ℚ) (i : ℕ) : pairSum dur pauseD i 0 = 0 := by
  simp [pairSum]

lemma pairSum_succ_left (dur pauseD : ℕ → ℚ) (i j : ℕ) :
    pairSum dur pauseD i (j + 1) = (dur i + pauseD i) + pairSum dur pauseD (i + 1) j := by
  unfold pairSum
  rw [Finset.sum_range_succ']
  have h2 : (∑ k in Finset.range j, (dur (i + (k + 1)) + pauseD (i + (k + 1))))
      = ∑ k in Finset.range j, (dur ((i + 1) + k) + pauseD ((i + 1) + k)) :=
    Finset.sum_congr rfl (fun k _ => by rw [show i + (k + 1) = (i + 1) + k by omega])
  rw [h2]
  simp only [Nat.add_zero]
  exact add_comm _ _

lemma pairSum_succ_right (dur pauseD : ℕ → ℚ) (i j : ℕ) :
    pairSum dur pauseD i (j + 1) = pairSum dur pauseD i j + (dur (i + j) + pauseD (i + j)) := by
  unfold pairSum
  rw [Finset.sum_range_succ]

lemma buildSegsLoop_fst (dur pauseD : ℕ → ℚ) (hasP : ℕ → Bool) (sProg eProg : ℕ → ℚ)
    (sIdx eIdx : ℕ → ℕ) :
    ∀ (n i : ℕ) (acc : ℚ),
      (buildSegsLoop dur pauseD hasP sProg eProg sIdx eIdx i n acc).1 =
        (List.range n).map (fun j =>
          { startTime := acc + pairSum dur pauseD i j,
            endTime := acc + pairSum dur pauseD i j + dur (i + j),
            duration := dur (i + j),
            startProgress := sProg (i + j),
            endProgress := eProg (i + j),
            startWaypointIndex := sIdx (i + j),
            endWaypointIndex := eIdx (i + j),
            hasPause := hasP (i + j),
            pauseDuration := pauseD (i + j) }) := by
  intro n
  induction n with
  | zero => intro i acc; simp [buildSegsLoop]
  | succ n ih =>
    intro i acc
    simp only [buildSegsLoop]
    rw [ih (i + 1) (acc + dur i + pauseD i)]
    rw [List.range_succ_eq_map, List.map_cons, List.map_map]
    refine congrArg₂ List.cons ?_ ?_
    · simp [pairSum_zero]
    · refine List.map_congr_left ?_
      intro j _
      simp only [Function.comp_apply]
      have hidx : i + (j + 1) = (i + 1) + j := by omega
      rw [hidx, pairSum_succ_left]
      congr 1 <;> ring

lemma buildSegsLoop_snd (dur pauseD : ℕ → ℚ) (hasP : ℕ → Bool) (sProg eProg : ℕ → ℚ)
    (sIdx eIdx : ℕ → ℕ) :
    ∀ (n i : ℕ) (acc : ℚ),
      (buildSegsLoop dur pauseD hasP sProg eProg sIdx eIdx i n acc).2 =
        acc + pairSum dur pauseD i n := by
  intro n
  induction n with
  | zero => intro i acc; simp [buildSegsLoop, pairSum_zero]
  | succ n ih =>
    intro i acc
    simp only [buildSegsLoop]
    rw [ih (i + 1) (acc + dur i + pauseD i), pairSum_succ_left]
    ring

lemma mapRange_getD {α : Type _} (f : ℕ → α) (n j : ℕ) (d : α) (hj : j < n) :
    ((List.range n).map f).getD j d = f j := by
  rw [List.getD_eq_getElem?_getD]
  simp [List.getElem?_map, List.getElem?_range, hj]

lemma listSum_map_range (f : ℕ → ℚ) (n : ℕ) :
    ((List.range n).map f).sum = ∑ k in Finset.range n, f k := by
  induction n with
  | zero => simp
  | succ n ih =>
    rw [List.range_succ, List.map_append, List.sum_append, Finset.sum_range_succ, ih]
    simp

/-- Closed form of segment j of a built map (for proofs about
buildTimingMap). -/
def builtSeg (sqrtFn : ℚ → ℚ) (waypoints : List Waypoint) (config : TimingConfig)
    (pathPoints : Option (List Point)) (j : ℕ) : Segment :=
  let majors := waypoints.filter (fun wp => wp.isMajor)
  let dur := segDuration sqrtFn waypoints config pathPoints majors
  let pauseD := pauseDurAt config majors.length
  { startTime := pairSum dur pauseD 0 j,
    endTime := pairSum dur pauseD 0 j + dur j,
    duration := dur j,
    startProgress := startProgAt majors.length j,
    endProgress := endProgAt majors.length j,
    startWaypointIndex := startIdxAt waypoints j,
    endWaypointIndex := startIdxAt waypoints (j + 1),
    hasPause := segHasPause config majors.length j,
    pauseDuration := pauseD j }

lemma buildTimingMap_segments_char (sqrtFn : ℚ → ℚ) (waypoints : List Waypoint)
    (config : TimingConfig) (pathPoints : Option (List Point))
    (h2 : ¬ (waypoints.filter (fun wp => wp.isMajor)).length < 2) :
    (buildTimingMap sqrtFn waypoints config pathPoints).segments =
      (List.range ((waypoints.filter (fun wp => wp.isMajor)).length - 1)).map
        (builtSeg sqrtFn waypoints config pathPoints) := by
  have hstep :
      (buildTimingMap sqrtFn waypoints config pathPoints).segments =
        (buildSegsLoop
          (segDuration sqrtFn waypoints config pathPoints
            (waypoints.filter (fun wp => wp.isMajor)))
          (pauseDurAt config (waypoints.filter (fun wp => wp.isMajor)).length)
          (segHasPause config (waypoints.filter (fun wp => wp.isMajor)).length)
          (startProgAt (waypoints.filter (fun wp => wp.isMajor)).length)
          (endProgAt (waypoints.filter (fun wp => wp.isMajor)).length)
          (startIdxAt waypoints)
          (fun i => startIdxAt waypoints (i + 1))
          0 ((waypoints.filter (fun wp => wp.isMajor)).length - 1) 0).1 := by
    simp [buildTimingMap, h2]
  rw [hstep, buildSegsLoop_fst]
  refine List.map_congr_left ?_
  intro j _
  simp [builtSeg]

lemma buildTimingMap_totalDuration_char (sqrtFn : ℚ → ℚ) (waypoints : List Waypoint)
    (config : TimingConfig) (pathPoints : Option (List Point))
    (h2 : ¬ (waypoints.filter (fun wp => wp.isMajor)).length < 2) :
    (buildTimingMap sqrtFn waypoints config pathPoints).totalDuration =
      pairSum
        (segDuration sqrtFn waypoints config pathPoints
          (waypoints.filter (fun wp => wp.isMajor)))
        (pauseDurAt config (waypoints.filter (fun wp => wp.isMajor)).length)
        0 ((waypoints.filter (fun wp => wp.isMajor)).length - 1) := by
  have hstep :
      (buildTimingMap sqrtFn waypoints config pathPoints).totalDuration =
        (buildSegsLoop
          (segDuration sqrtFn waypoints config pathPoints
            (waypoints.filter (fun wp => wp.isMajor)))
          (pauseDurAt config (waypoints.filter (fun wp => wp.isMajor)).length)
          (segHasPause config (waypoints.filter (fun wp => wp.isMajor)).length)
          (startProgAt (waypoints.filter (fun wp => wp.isMajor)).length)
          (endProgAt (waypoints.filter (fun wp => wp.isMajor)).length)
          (startIdxAt waypoints)
          (fun i => startIdxAt waypoints (i + 1))
          0 ((waypoints.filter (fun wp => wp.isMajor)).length - 1) 0).2 := by
    simp [buildTimingMap, h2]
  rw [hstep, buildSegsLoop_snd]
  ring

/-- Claim C7: confirmed.  Every segment of every built map satisfies
endTime = startTime + duration; the next segment starts exactly at the
previous segment endTime plus its pauseDuration (contiguity including the
trailing pause); and startProgress, endProgress are i/(n-1), (i+1)/(n-1)
for n the number of major waypoints.  Stated over an arbitrary abstract
square root, so it covers both timing modes. -/
theorem c7_buildTimingMap_invariants (sqrtFn : ℚ → ℚ) (waypoints : List Waypoint)
    (config : TimingConfig) (pathPoints : Option (List Point)) (i : ℕ)
    (hi : i < (buildTimingMap sqrtFn waypoints config pathPoints).segments.length) :
    ((buildTimingMap sqrtFn waypoints config pathPoints).segments.getD i segZero).endTime
      = ((buildTimingMap sqrtFn waypoints config pathPoints).segments.getD i segZero).startTime
        + ((buildTimingMap sqrtFn waypoints config pathPoints).segments.getD i segZero).duration ∧
    ((buildTimingMap sqrtFn waypoints config pathPoints).segments.getD i segZero).startProgress
      = (i : ℚ) / ((majorCount waypoints : ℚ) - 1) ∧
    ((buildTimingMap sqrtFn waypoints config pathPoints).segments.getD i segZero).endProgress
      = ((i : ℚ) + 1) / ((majorCount waypoints : ℚ) - 1) ∧
    (i + 1 < (buildTimingMap sqrtFn waypoints config pathPoints).segments.length →
      ((buildTimingMap sqrtFn waypoints config pathPoints).segments.getD (i + 1) segZero).startTime
        = ((buildTimingMap sqrtFn waypoints config pathPoints).segments.getD i segZero).endTime
          + ((buildTimingMap sqrtFn waypoints config pathPoints).segments.getD i
              segZero).pauseDuration) := by
  by_cases h2 : (waypoints.filter (fun wp => wp.isMajor)).length < 2
  · exfalso
    simp [buildTimingMap, h2] at hi
  · have hchar := buildTimingMap_segments_char sqrtFn waypoints config pathPoints h2
    rw [hchar] at hi ⊢
    rw [List.length_map, List.length_range] at hi
    rw [mapRange_getD _ _ _ _ hi]
    refine ⟨rfl, ?_, ?_, ?_⟩
    · simp [builtSeg, majorCount, startProgAt]
    · simp [builtSeg, majorCount, endProgAt]
    · intro hi1
      rw [List.length_map, List.length_range] at hi1
      rw [mapRange_getD _ _ _ _ hi1]
      simp only [builtSeg]
      rw [pairSum_succ_right]
      simp only [Nat.zero_add]
      ring

/-- Witness for C7 at segment 0 of the concrete 3-major pause map. -/
theorem c7_buildTimingMap_invariants_witness :
    ((pauseMap.segments.getD 0 segZero).endTime
      = (pauseMap.segments.getD 0 segZero).startTime
        + (pauseMap.segments.getD 0 segZero).duration) ∧
    (pauseMap.segments.getD 0 segZero).startProgress
      = ((0 : ℕ) : ℚ) / ((majorCount [wpA, wpB, wpC] : ℚ) - 1) ∧
    (pauseMap.segments.getD 0 segZero).endProgress
      = (((0 : ℕ) : ℚ) + 1) / ((majorCount [wpA, wpB, wpC] : ℚ) - 1) ∧
    (pauseMap.segments.getD (0 + 1) segZero).startTime
      = (pauseMap.segments.getD 0 segZero).endTime
        + (pauseMap.segments.getD 0 segZero).pauseDuration := by
  have hlen : (buildTimingMap sqrtZero [wpA, wpB, wpC] pauseConfig Option.none).segments.length
      = 2 := by
    have h := pauseMap_eq
    unfold pauseMap at h
    rw [h]
    rfl
  have h := c7_buildTimingMap_invariants sqrtZero [wpA, wpB, wpC] pauseConfig Option.none 0
    (by omega)
  exact ⟨h.1, h.2.1, h.2.2.1, h.2.2.2 (by omega)⟩

def speedConfig : TimingConfig :=
  { mode := TimingMode.constantSpeed, baseSpeedPxPerSec := 200,
    pauseMode := PauseMode.seconds, pauseSeconds := 2, easeInOut := true }

/-- Claim C10: confirmed.  If buildTimingMap runs in constantSpeed mode
with at least two majors and the densified-points argument omitted, the
duration of every segment is 0 (so startTime = endTime on each), and
totalDuration is exactly the sum of the per-segment pause durations.  The
function is total, so no error is raised. -/
theorem c10_constantSpeed_without_points (sqrtFn : ℚ → ℚ) (waypoints : List Waypoint)
    (config : TimingConfig) (hmode : config.mode = TimingMode.constantSpeed)
    (hmaj : 2 ≤ majorCount waypoints) :
    ((buildTimingMap sqrtFn waypoints config Option.none).segments.map (fun s => s.duration))
      = List.replicate (buildTimingMap sqrtFn waypoints config Option.none).segments.length 0 ∧
    ((buildTimingMap sqrtFn waypoints config Option.none).segments.all
      (fun s => decide (s.startTime = s.endTime))) = true ∧
    (buildTimingMap sqrtFn waypoints config Option.none).totalDuration
      = ((buildTimingMap sqrtFn waypoints config Option.none).segments.map
          (fun s => s.pauseDuration)).sum := by
  have h2 : ¬ (waypoints.filter (fun wp => wp.isMajor)).length < 2 := by
    unfold majorCount at hmaj
    omega
  have hD : ∀ i, segDuration sqrtFn waypoints config Option.none
      (waypoints.filter (fun wp => wp.isMajor)) i = 0 := by
    intro i
    simp [segDuration, hmode]
  have hchar := buildTimingMap_segments_char sqrtFn waypoints config Option.none h2
  have htot := buildTimingMap_totalDuration_char sqrtFn waypoints config Option.none h2
  refine ⟨?_, ?_, ?_⟩
  · rw [hchar, List.map_map, List.length_map, List.length_range]
    rw [show ((fun s => s.duration) ∘ builtSeg sqrtFn waypoints config Option.none)
        = fun _ => (0 : ℚ) from funext fun j => by simp [builtSeg, hD]]
    simp [List.map_const]
  · rw [hchar, List.all_eq_true]
    intro s hs
    rw [List.mem_map] at hs
    obtain ⟨j, _, rfl⟩ := hs
    simp [builtSeg, hD]
  · rw [htot, hchar, List.map_map]
    rw [show ((fun s => s.pauseDuration) ∘ builtSeg sqrtFn waypoints config Option.none)
        = fun j => pauseDurAt config (waypoints.filter (fun wp => wp.isMajor)).length j
        from funext fun j => by simp [builtSeg]]
    rw [listSum_map_range]
    unfold pairSum
    refine Finset.sum_congr rfl ?_
    intro k _
    rw [Nat.zero_add, hD]
    ring

/-- Witness for C10 at the concrete 3-major waypoint list in constantSpeed
mode with no densified points. -/
theorem c10_constantSpeed_without_points_witness :
    ((buildTimingMap sqrtZero [wpA, wpB, wpC] speedConfig Option.none).segments.map
        (fun s => s.duration))
      = List.replicate
          (buildTimingMap sqrtZero [wpA, wpB, wpC] speedConfig Option.none).segments.length 0 ∧
    ((buildTimingMap sqrtZero [wpA, wpB, wpC] speedConfig Option.none).segments.all
      (fun s => decide (s.startTime = s.endTime))) = true ∧
    (buildTimingMap sqrtZero [wpA, wpB, wpC] speedConfig Option.none).totalDuration
      = ((buildTimingMap sqrtZero [wpA, wpB, wpC] speedConfig Option.none).segments.map
          (fun s => s.pauseDuration)).sum :=
  c10_constantSpeed_without_points sqrtZero [wpA, wpB, wpC] speedConfig rfl
    (by norm_num +decide [majorCount, wpA, wpB, wpC, List.filter])

/-- Claim C8: confirmed.  The easing function is 2t^2 below one half and
1 - 2(1-t)^2 above (the source writes the second branch as -1 + (4-2t)t,
an algebraic identity); applyEasing leaves the first and the last segment
ratio untouched and eases only interior ratios; and away from pause
windows getNormalizedProgressAtTime is exactly startProgress + span *
applyEasing(motionRatio), that is, easing acts on the motion-progress
ratio of the located segment and never on the time argument itself. -/
theorem c8_easing_shape :
    (∀ t : ℚ, quadraticEaseInOut t
        = if t < 1 / 2 then 2 * t * t else 1 - 2 * (1 - t) * (1 - t)) ∧
    (∀ (p : ℚ) (i n : ℕ), applyEasing p true i n
        = if i = 0 ∨ i = n - 1 then p else quadraticEaseInOut p) ∧
    (∀ (p : ℚ) (i n : ℕ), applyEasing p false i n = p) ∧
    (∀ (map : SegmentTimingMap) (t : ℚ) (s0 : Segment) (rest : List Segment),
      map.segments = s0 :: rest →
      ¬ ((map.segments.getD (progressSegIdx map (max 0 (min t map.totalDuration))) s0).endTime
            ≤ max 0 (min t map.totalDuration) ∧
          max 0 (min t map.totalDuration)
            < (map.segments.getD (progressSegIdx map (max 0 (min t map.totalDuration)))
                s0).endTime
              + (map.segments.getD (progressSegIdx map (max 0 (min t map.totalDuration)))
                  s0).pauseDuration) →
      getNormalizedProgressAtTime map t
        = (map.segments.getD (progressSegIdx map (max 0 (min t map.totalDuration)))
            s0).startProgress
          + ((map.segments.getD (progressSegIdx map (max 0 (min t map.totalDuration)))
                s0).endProgress
              - (map.segments.getD (progressSegIdx map (max 0 (min t map.totalDuration)))
                  s0).startProgress)
            * applyEasing
                ((max 0 (min t map.totalDuration)
                    - (map.segments.getD (progressSegIdx map (max 0 (min t map.totalDuration)))
                        s0).startTime)
                  / (map.segments.getD (progressSegIdx map (max 0 (min t map.totalDuration)))
                      s0).duration)
                true (progressSegIdx map (max 0 (min t map.totalDuration)))
                map.segments.length) := by
  refine ⟨?_, ?_, ?_, ?_⟩
  · intro t
    unfold quadraticEaseInOut
    split
    · rfl
    · ring
  · intro p i n
    rfl
  · intro p i n
    rfl
  · intro map t s0 rest hseg hnp
    obtain ⟨segs, td, tpl, mo, bs⟩ := map
    simp only at hseg
    subst hseg
    simp only [getNormalizedProgressAtTime]
    rw [if_neg ?hc]
    case hc =>
      simp only [Bool.and_eq_true, decide_eq_true_eq]
      exact fun hcontra => hnp hcontra

/-- Witness for C8: at time 3/2 inside the motion window of the first
segment of the pause map, the value is startProgress + span * rawRatio
with no easing applied (first segment), namely 1/4. -/
theorem c8_easing_shape_witness :
    getNormalizedProgressAtTime pauseMap (3 / 2) = 1 / 4 := by
  have hseg : pauseMap.segments = pauseSeg0 :: [pauseSeg1] := by rw [pauseMap_eq]
  have hnp := c8_easing_shape.2.2.2 pauseMap (3 / 2) pauseSeg0 [pauseSeg1] hseg
    (by rw [pauseMap_eq]
        norm_num +decide [progressSegIdx, progressSegPred, List.findIdx?,
          max_def, min_def, pauseSeg0, pauseSeg1])
  rw [hnp, pauseMap_eq]
  norm_num +decide [progressSegIdx, progressSegPred, List.findIdx?,
    max_def, min_def, pauseSeg0, pauseSeg1, applyEasing, quadraticEaseInOut]

/-! Geometry module, from the geometry source file (src/unnamed/part_000).
Numbers carry the IEEE special values NaN and signed infinity, because the
centripetal basis divides 0 by 0 whenever two adjacent control points
coincide, which happens at the clamped path endpoints.  Signed zeros are
collapsed into the single rational zero; every division below is either by
a nonzero value or by a zero produced as 0 - 0, where IEEE yields +0, so
the collapse is exact for the evaluations in this file.  Math.sqrt and
Math.pow(x, 0.5) on nonnegative finite doubles are abstracted as rational
functions sqrtFn and powHalfFn. -/

inductive JSNum
  | nan
  | inf (pos : Bool)
  | fin (q : ℚ)
deriving DecidableEq

def jneg : JSNum → JSNum
  | JSNum.nan => JSNum.nan
  | JSNum.inf b => JSNum.inf (!b)
  | JSNum.fin q => JSNum.fin (-q)

def jadd : JSNum → JSNum → JSNum
  | JSNum.nan, _ => JSNum.nan
  | _, JSNum.nan => JSNum.nan
  | JSNum.inf a, JSNum.inf b => if a = b then JSNum.inf a else JSNum.nan
  | JSNum.inf a, JSNum.fin _ => JSNum.inf a
  | JSNum.fin _, JSNum.inf b => JSNum.inf b
  | JSNum.fin a, JSNum.fin b => JSNum.fin (a + b)

def jsub (a b : JSNum) : JSNum := jadd a (jneg b)

def jmul : JSNum → JSNum → JSNum
  | JSNum.nan, _ => JSNum.nan
  | _, JSNum.nan => JSNum.nan
  | JSNum.inf a, JSNum.inf b => JSNum.inf (a == b)
  | JSNum.inf a, JSNum.fin q =>
    if q = 0 then JSNum.nan else JSNum.inf (a == decide (0 < q))
  | JSNum.fin q, JSNum.inf b =>
    if q = 0 then JSNum.nan else JSNum.inf (b == decide (0 < q))
  | JSNum.fin a, JSNum.fin b => JSNum.fin (a * b)

def jdiv : JSNum → JSNum → JSNum
  | JSNum.nan, _ => JSNum.nan
  | _, JSNum.nan => JSNum.nan
  | JSNum.inf _, JSNum.inf _ => JSNum.nan
  | JSNum.inf a, JSNum.fin q => JSNum.inf (a == decide (0 ≤ q))
  | JSNum.fin _, JSNum.inf _ => JSNum.fin 0
  | JSNum.fin p, JSNum.fin q =>
    if q = 0 then (if p = 0 then JSNum.nan else JSNum.inf (decide (0 < p)))
    else JSNum.fin (p / q)

def jleB : JSNum → JSNum → Bool
  | JSNum.nan, _ => false
  | _, JSNum.nan => false
  | JSNum.inf a, JSNum.inf b => !a || b
  | JSNum.inf a, JSNum.fin _ => !a
  | JSNum.fin _, JSNum.inf b => b
  | JSNum.fin p, JSNum.fin q => decide (p ≤ q)

/-- The JavaScript comparison x >= y (false whenever either side is NaN). -/
def jgeB (a b : JSNum) : Bool := jleB b a

/-- The JavaScript strict equality === on numbers (false on NaN). -/
def jeqB : JSNum → JSNum → Bool
  | JSNum.fin p, JSNum.fin q => decide (p = q)
  | JSNum.inf a, JSNum.inf b => a == b
  | _, _ => false

def jminJ (a b : JSNum) : JSNum :=
  if a == JSNum.nan || b == JSNum.nan then JSNum.nan
  else if jleB a b then a else b

def jmaxJ (a b : JSNum) : JSNum :=
  if a == JSNum.nan || b == JSNum.nan then JSNum.nan
  else if jleB b a then a else b

def jsSqrt (sqrtFn : ℚ → ℚ) : JSNum → JSNum
  | JSNum.nan => JSNum.nan
  | JSNum.inf b => if b then JSNum.inf true else JSNum.nan
  | JSNum.fin q => if q < 0 then JSNum.nan else JSNum.fin (sqrtFn q)

structure JPoint where
  x : JSNum
  y : JSNum
deriving DecidableEq

def jpZero : JPoint := { x := JSNum.fin 0, y := JSNum.fin 0 }

/-- distance from the geometry source lines 154-158. -/
def distance (sqrtFn : ℚ → ℚ) (a b : JPoint) : JSNum :=
  let dx := jsub b.x a.x
  let dy := jsub b.y a.y
  jsSqrt sqrtFn (jadd (jmul dx dx) (jmul dy dy))

/-- catmullRomCentripetal from the geometry source lines 25-80.  The
knots use alpha = 0.5, Math.pow(d, 0.5) abstracted as powHalfFn; note the
source reassigns t to the rescaled knot parameter before computing the
basis AND before the "linear" blend component. -/
def catmullRomCentripetal (sqrtFn powHalfFn : ℚ → ℚ) (p0 p1 p2 p3 : JPoint)
    (tParam : JSNum) (tension : JSNum) : JPoint :=
  let d01 := distance sqrtFn p0 p1
  let d12 := distance sqrtFn p1 p2
  let d23 := distance sqrtFn p2 p3
  let t0 : JSNum := JSNum.fin 0
  let t1 := jadd t0 (jsSqrt powHalfFn d01)
  let t2 := jadd t1 (jsSqrt powHalfFn d12)
  let t3 := jadd t2 (jsSqrt powHalfFn d23)
  let t := jadd t1 (jmul tParam (jsub t2 t1))
  let t1t0 := jsub t1 t0
  let t2t1 := jsub t2 t1
  let t3t2 := jsub t3 t2
  let A1x := jadd (jmul (jdiv (jsub t1 t) t1t0) p0.x) (jmul (jdiv (jsub t t0) t1t0) p1.x)
  let A1y := jadd (jmul (jdiv (jsub t1 t) t1t0) p0.y) (jmul (jdiv (jsub t t0) t1t0) p1.y)
  let A2x := jadd (jmul (jdiv (jsub t2 t) t2t1) p1.x) (jmul (jdiv (jsub t t1) t2t1) p2.x)
  let A2y := jadd (jmul (jdiv (jsub t2 t) t2t1) p1.y) (jmul (jdiv (jsub t t1) t2t1) p2.y)
  let A3x := jadd (jmul (jdiv (jsub t3 t) t3t2) p2.x) (jmul (jdiv (jsub t t2) t3t2) p3.x)
  let A3y := jadd (jmul (jdiv (jsub t3 t) t3t2) p2.y) (jmul (jdiv (jsub t t2) t3t2) p3.y)
  let B1x := jadd (jmul (jdiv (jsub t2 t) (jsub t2 t0)) A1x)
    (jmul (jdiv (jsub t t0) (jsub t2 t0)) A2x)
  let B1y := jadd (jmul (jdiv (jsub t2 t) (jsub t2 t0)) A1y)
    (jmul (jdiv (jsub t t0) (jsub t2 t0)) A2y)
  let B2x := jadd (jmul (jdiv (jsub t3 t) (jsub t3 t1)) A2x)
    (jmul (jdiv (jsub t t1) (jsub t3 t1)) A3x)
  let B2y := jadd (jmul (jdiv (jsub t3 t) (jsub t3 t1)) A2y)
    (jmul (jdiv (jsub t t1) (jsub t3 t1)) A3y)
  let linearX := jadd (jmul (jsub (JSNum.fin 1) t) p1.x) (jmul t p2.x)
  let linearY := jadd (jmul (jsub (JSNum.fin 1) t) p1.y) (jmul t p2.y)
  let curvedX := jadd (jmul (jdiv (jsub t2 t) t2t1) B1x) (jmul (jdiv (jsub t t1) t2t1) B2x)
  let curvedY := jadd (jmul (jdiv (jsub t2 t) t2t1) B1y) (jmul (jdiv (jsub t t1) t2t1) B2y)
  { x := jadd (jmul linearX (jsub (JSNum.fin 1) tension)) (jmul curvedX tension),
    y := jadd (jmul linearY (jsub (JSNum.fin 1) tension)) (jmul curvedY tension) }

def arcLengthAuxJ (sqrtFn : ℚ → ℚ) (prev : JPoint) (total : JSNum) : List JPoint → List JSNum
  | [] => []
  | p :: ps =>
    let total2 := jadd total (distance sqrtFn prev p)
    total2 :: arcLengthAuxJ sqrtFn p total2 ps

/-- buildArcLengthTable from the geometry source lines 86-99, over IEEE
numbers. -/
def buildArcLengthTableJ (sqrtFn : ℚ → ℚ) (points : List JPoint) : List JSNum :=
  match points with
  | [] => []
  | p :: ps => JSNum.fin 0 :: arcLengthAuxJ sqrtFn p (JSNum.fin 0) ps

/-- The bracketing-segment scan of getPositionAtArcLength (geometry source
lines 118-124): first index i in [1, length) whose table entry reaches the
target, minus one; 0 when the scan never breaks. -/
def findSegIdx (distances : List JSNum) (target : JSNum) : ℕ :=
  match (List.range (distances.length - 1)).findIdx?
      (fun k => jgeB (distances.getD (k + 1) (JSNum.fin 0)) target) with
  | Option.some k => k
  | Option.none => 0

/-- getPositionAtArcLength from the geometry source lines 105-149.  Note
the final call passes the DEFAULT tension 0.5, regardless of the tension
used to build the displayed curve. -/
def getPositionAtArcLength (sqrtFn powHalfFn : ℚ → ℚ) (points : List JPoint)
    (distances : List JSNum) (targetLength0 : JSNum) : JPoint :=
  if points.length = 0 then jpZero
  else if points.length = 1 then points.getD 0 jpZero
  else
    let totalLength := distances.getD (distances.length - 1) (JSNum.fin 0)
    let targetLength := jmaxJ (JSNum.fin 0) (jminJ targetLength0 totalLength)
    let segmentIndex := findSegIdx distances targetLength
    if points.length - 1 ≤ segmentIndex then points.getD (points.length - 1) jpZero
    else
      let segmentStartLength := distances.getD segmentIndex (JSNum.fin 0)
      let segmentEndLength := distances.getD (segmentIndex + 1) (JSNum.fin 0)
      let segmentLength := jsub segmentEndLength segmentStartLength
      if jeqB segmentLength (JSNum.fin 0) then points.getD segmentIndex jpZero
      else
        let t := jdiv (jsub targetLength segmentStartLength) segmentLength
        let p0 := points.getD (segmentIndex - 1) jpZero
        let p1 := points.getD segmentIndex jpZero
        let p2 := points.getD (segmentIndex + 1) jpZero
        let p3 := points.getD (min (points.length - 1) (segmentIndex + 2)) jpZero
        catmullRomCentripetal sqrtFn powHalfFn p0 p1 p2 p3 t (JSNum.fin (1 / 2))

/-- generateSmoothPath from the geometry source lines 164-194. -/
def generateSmoothPath (sqrtFn powHalfFn : ℚ → ℚ) (points : List JPoint)
    (pointsPerSegment : ℕ) (tension : JSNum) : List JPoint :=
  if points.length < 2 then points
  else
    (List.range (points.length - 1)).foldl
      (fun smoothPath i =>
        let acc := if i = 0 then smoothPath ++ [points.getD 0 jpZero] else smoothPath
        acc ++ (List.range pointsPerSegment).map (fun j =>
          catmullRomCentripetal sqrtFn powHalfFn
            (points.getD (i - 1) jpZero)
            (points.getD i jpZero)
            (points.getD (i + 1) jpZero)
            (points.getD (min (points.length - 1) (i + 2)) jpZero)
            (JSNum.fin (((j + 1 : ℕ) : ℚ) / (pointsPerSegment : ℚ)))
            tension))
      []

/-! Concrete C9 fixture: three collinear points spaced 16 pixels apart, so
every square root the evaluation touches is exact: sqrt(256) = 16 for the
distances and pow(16, 0.5) = 4, pow(0, 0.5) = 0 for the knots. -/

def sqrtEx : ℚ → ℚ := fun q => if q = 256 then 16 else if q = 16 then 4 else 0

def c9pts : List JPoint :=
  [{ x := JSNum.fin 0, y := JSNum.fin 0 },
   { x := JSNum.fin 16, y := JSNum.fin 0 },
   { x := JSNum.fin 32, y := JSNum.fin 0 }]

def c9tbl : List JSNum := buildArcLengthTableJ sqrtEx c9pts

lemma tripleGetFst {α : Type _} (a b c : α) (h : 0 < ([a, b, c] : List α).length) :
    ([a, b, c] : List α)[0] = a := rfl

lemma tripleGetSnd {α : Type _} (a b c : α) (h : 1 < ([a, b, c] : List α).length) :
    ([a, b, c] : List α)[1] = b := rfl

lemma tripleGetThd {α : Type _} (a b c : α) (h : 2 < ([a, b, c] : List α).length) :
    ([a, b, c] : List α)[2] = c := rfl

/-- Claim C9: refuting evaluation.  On the three-point path, the arc
length table is [0, 16, 32]; at targetLength = 0 the bracketing segment is
the first one, whose clamped neighbour p0 coincides with p1, so the knot
interval t1 - t0 is zero, the basis divides 0 by 0, NaN propagates through
the tension blend, and the function returns (NaN, NaN) instead of the
first point.  At targetLength = totalLength the clamped p3 coincides with
p2 and the same 0/0 yields (NaN, NaN) instead of the last point. -/
theorem c9_endpoint_nan_eval :
    c9tbl = [JSNum.fin 0, JSNum.fin 16, JSNum.fin 32] ∧
    getPositionAtArcLength sqrtEx sqrtEx c9pts c9tbl (JSNum.fin 0)
      = { x := JSNum.nan, y := JSNum.nan } ∧
    getPositionAtArcLength sqrtEx sqrtEx c9pts c9tbl (JSNum.fin 32)
      = { x := JSNum.nan, y := JSNum.nan } := by
  have htbl : c9tbl = [JSNum.fin 0, JSNum.fin 16, JSNum.fin 32] := by
    norm_num +decide [c9tbl, buildArcLengthTableJ, arcLengthAuxJ, distance, c9pts,
      jadd, jsub, jneg, jmul, jsSqrt, sqrtEx]
  refine ⟨htbl, ?_, ?_⟩ <;>
    rw [htbl] <;>
    norm_num +decide [getPositionAtArcLength, findSegIdx, catmullRomCentripetal,
      distance, c9pts, jpZero, jadd, jsub, jneg, jmul, jdiv, jsSqrt, jleB, jgeB,
      jeqB, jminJ, jmaxJ, sqrtEx, List.findIdx?, tripleGetFst, tripleGetSnd,
      tripleGetThd]

end RouterPlotter
